import Mathlib

/-!
Shallow embedding of the ModuleLogger crate's runtime state manager:
severity levels, log destinations, the `LoggerParams` state struct and its
operations (`src/logger_params.rs`), the record emission gate and sink
fan-out of `Logger::log`, `Logger::set_log_file` (`src/lib.rs`), and the
configuration builder/application path (`src/config.rs`, `src/lib.rs`).

Module paths are embedded as `List Char`; the `HashMap<String, Level>` of
per-module overrides is embedded as an association list with
replace-on-insert semantics; `Vec<u8>` buffers are `List Nat`; boxed
writer stream handles carry no observable state and are embedded as
`Option Unit` (presence only), with stream writes reported as events.
-/

namespace ModuleLogger

/-- `log::Level`: Error < Warn < Info < Warn < Trace in the `log` crate's
discriminant order; `Trace` is the most verbose (largest). -/
inductive Level where
  | Error
  | Warn
  | Info
  | Debug
  | Trace
deriving DecidableEq, Repr

/-- Discriminant of `log::Level` (Error = 1 .. Trace = 5). -/
def Level.toNat : Level → Nat
  | .Error => 1
  | .Warn => 2
  | .Info => 3
  | .Debug => 4
  | .Trace => 5

theorem Level.toNat_injective : Function.Injective Level.toNat := by
  intro a b h
  cases a <;> cases b <;> first
    | rfl
    | (exfalso ; simp [Level.toNat] at h)

instance : LinearOrder Level := LinearOrder.lift' Level.toNat Level.toNat_injective

theorem Level.le_def (a b : Level) : a ≤ b ↔ a.toNat ≤ b.toNat := Iff.rfl

theorem Level.lt_def (a b : Level) : a < b ↔ a.toNat < b.toNat := Iff.rfl

/-- `LogDestination` from `src/logger_params.rs`. -/
inductive LogDestination where
  | Stdout
  | Stderr
  | Stream
  | StreamStdout
  | StreamStderr
  | Buffer
  | BufferStdout
  | BufferStderr
deriving DecidableEq, Repr

namespace LogDestination

/-- `LogDestination::is_stream_dest`. -/
def is_stream_dest (d : LogDestination) : Bool :=
  d = Stream || d = StreamStderr || d = StreamStdout

/-- `LogDestination::is_buffer_dest`. -/
def is_buffer_dest (d : LogDestination) : Bool :=
  d = Buffer || d = BufferStderr || d = BufferStdout

/-- `LogDestination::is_stderr`. -/
def is_stderr (d : LogDestination) : Bool :=
  d = Stderr || d = BufferStderr || d = StreamStderr

/-- `LogDestination::is_stdout`. -/
def is_stdout (d : LogDestination) : Bool :=
  d = Stdout || d = BufferStdout || d = StreamStdout

end LogDestination

/-- `ErrorKind` from `src/error.rs`. -/
inductive ErrorKind where
  | Upstream
  | InvParam
  | InvState
deriving DecidableEq, Repr

/-- A module path or a log line, embedded as a character list. -/
abbrev Chars := List Char

/-- The per-module override table: `HashMap<String, Level>` embedded as an
association list (no duplicate keys when built via `insertMod`). -/
abbrev ModMap := List (Chars × Level)

/-- `HashMap::insert`: replace any existing binding of the key. -/
def insertMod (m : ModMap) (k : Chars) (v : Level) : ModMap :=
  (k, v) :: m.filter (fun kv => !decide (kv.1 = k))

/-- `HashMap::get`: exact-key lookup. -/
def lookupMod (m : ModMap) (k : Chars) : Option Level :=
  match m with
  | [] => none
  | kv :: rest => if kv.1 = k then some kv.2 else lookupMod rest k

/-- `DEFAULT_LOG_LEVEL` from `src/lib.rs`. -/
def DEFAULT_LOG_LEVEL : Level := Level.Info

/-- `DEFAULT_LOG_DEST` from `src/lib.rs`. -/
def DEFAULT_LOG_DEST : LogDestination := LogDestination.Stderr

/-- `LoggerParams` from `src/logger_params.rs`.  The boxed writer
`log_stream : Option<Box<dyn Write + Send>>` is embedded as `Option Unit`
(handle presence); the `Vec<u8>` buffer as `Option (List Nat)`. -/
structure LoggerParams where
  log_dest : LogDestination
  log_stream : Option Unit
  log_buffer : Option (List Nat)
  default_level : Level
  mod_level : ModMap
  max_level : Level
  color : Bool
  brief_info : Bool
  timestamp : Bool
  millis : Bool
  initialised : Bool
deriving DecidableEq, Repr

namespace LoggerParams

/-- `LoggerParams::new`. -/
def new (log_level : Level) : LoggerParams :=
  { log_dest := DEFAULT_LOG_DEST
    log_stream := none
    log_buffer := none
    default_level := log_level
    max_level := log_level
    mod_level := []
    initialised := false
    color := false
    brief_info := false
    timestamp := true
    millis := false }

/-- The loop body of `recalculate_max_level`: running maximum, mirroring
`if max_level < *level { max_level = *level }`. -/
def recalcMax (d : Level) (ls : List Level) : Level :=
  ls.foldl (fun m l => if m < l then l else m) d

/-- `LoggerParams::recalculate_max_level`. -/
def recalculate_max_level (p : LoggerParams) : LoggerParams :=
  { p with max_level := recalcMax p.default_level (p.mod_level.map Prod.snd) }

/-- `LoggerParams::set_mod_level` (the returned `&Level` is the stored
`max_level` of the result).  The `level.cmp(&self.max_level)` match:
`Greater` takes the new level, `Less` recomputes, `Equal` leaves it. -/
def set_mod_level (p : LoggerParams) (module : Chars) (level : Level) : LoggerParams :=
  if p.max_level < level then
    { p with mod_level := insertMod p.mod_level module level, max_level := level }
  else if level < p.max_level then
    recalculate_max_level { p with mod_level := insertMod p.mod_level module level }
  else { p with mod_level := insertMod p.mod_level module level }

/-- `LoggerParams::set_default_level`: `if level >= self.max_level` take it,
else recompute. -/
def set_default_level (p : LoggerParams) (level : Level) : LoggerParams :=
  if p.max_level ≤ level then { p with default_level := level, max_level := level }
  else recalculate_max_level { p with default_level := level }

/-- `LoggerParams::set_mod_config` (feature `config`): insert every entry of
the configured mapping, then recompute the max level. -/
def set_mod_config (p : LoggerParams) (cfg : ModMap) : LoggerParams :=
  recalculate_max_level
    { p with mod_level := cfg.foldl (fun m kv => insertMod m kv.1 kv.2) p.mod_level }

/-- `LoggerParams::retrieve_log_buffer`: clone the contents and clear the
buffer in place (`buffer.clear()` leaves an empty allocation, not `None`). -/
def retrieve_log_buffer (p : LoggerParams) : Option (List Nat) × LoggerParams :=
  match p.log_buffer with
  | some b => (some b, { p with log_buffer := some [] })
  | none => (none, p)

/-- `LoggerParams::set_log_dest`.  The initial `self.flush()` writes to the
OS sinks and changes no stored field, so it has no effect here.  The result
pairs the `Result<()>` with the (possibly unchanged) state, mirroring
`&mut self`. -/
def set_log_dest (p : LoggerParams) (dest : LogDestination) (stream : Option Unit) :
    Except ErrorKind Unit × LoggerParams :=
  if dest.is_stream_dest then
    match stream with
    | some s => (Except.ok (), { p with log_dest := dest, log_stream := some s })
    | none => (Except.error ErrorKind.InvParam, p)
  else if dest.is_buffer_dest then
    (Except.ok (),
      { p with
        log_dest := dest
        log_stream := none
        log_buffer := match p.log_buffer with | none => some [] | some b => some b })
  else
    (Except.ok (), { p with log_stream := none, log_dest := dest, log_buffer := none })

end LoggerParams

/-- `str::rfind("::")` on a character list: the index of the LAST occurrence
of two consecutive colons, if any.  (Rust returns a byte index; on the same
string both indices denote the same occurrence, and the prefix taken below
is the same substring.) -/
def rfindSep : Chars → Option Nat
  | [] => none
  | c :: rest =>
    match rfindSep rest with
    | some i => some (i + 1)
    | none =>
      if c = ':' then
        match rest with
        | ':' :: _ => some 0
        | _ => none
      else none

theorem rfindSep_lt_length {cs : Chars} {i : Nat} (h : rfindSep cs = some i) :
    i + 2 ≤ cs.length := by
  induction cs generalizing i with
  | nil => simp [rfindSep] at h
  | cons c rest ih =>
    simp only [rfindSep] at h
    cases hr : rfindSep rest with
    | some j =>
      rw [hr] at h
      cases h
      have := ih hr
      simp only [List.length_cons]
      omega
    | none =>
      rw [hr] at h
      by_cases hc : c = ':'
      · simp only [hc, if_pos rfl] at h
        cases rest with
        | nil => simp at h
        | cons c2 rest2 =>
          by_cases hc2 : c2 = ':'
          · subst hc2
            simp at h
            subst h
            simp only [List.length_cons]
            omega
          · cases c2 <;> simp_all
      · simp [hc] at h

namespace LoggerParams

/-- `LoggerParams::get_mod_level`: hierarchical lookup.  Try the exact
module path; on a miss, split at the last `"::"` and retry on the prefix;
return `none` when no separator remains. -/
def get_mod_level (m : ModMap) (path : Chars) : Option Level :=
  match lookupMod m path with
  | some l => some l
  | none =>
    match h : rfindSep path with
    | some i => get_mod_level m (path.take i)
    | none => none
termination_by path.length
decreasing_by
  have h2 := rfindSep_lt_length h
  simp [List.length_take]
  omega

/-- Level resolution as performed by `Logger::log`: the module override if
any ancestor matches, the default level otherwise. -/
def resolve (m : ModMap) (d : Level) (path : Chars) : Level :=
  match get_mod_level m path with
  | some l => l
  | none => d

theorem get_mod_level_hit {m : ModMap} {path : Chars} {l : Level}
    (h : lookupMod m path = some l) : get_mod_level m path = some l := by
  rw [get_mod_level.eq_def, h]

theorem get_mod_level_step {m : ModMap} {path : Chars} {i : Nat}
    (h1 : lookupMod m path = none) (h2 : rfindSep path = some i) :
    get_mod_level m path = get_mod_level m (path.take i) := by
  rw [get_mod_level.eq_def, h1]
  split
  · rename_i j heq
    cases heq
  · split
    · rename_i j heq
      rw [h2] at heq
      cases heq
      rfl
    · rename_i heq
      rw [h2] at heq
      cases heq

theorem get_mod_level_miss {m : ModMap} {path : Chars}
    (h1 : lookupMod m path = none) (h2 : rfindSep path = none) :
    get_mod_level m path = none := by
  rw [get_mod_level.eq_def, h1]
  split
  · rename_i j heq
    cases heq
  · split
    · rename_i j heq
      rw [h2] at heq
      cases heq
    · rfl

end LoggerParams

/-- The sinks a single `Logger::log` call can write the formatted line to. -/
inductive SinkTarget where
  | toStdout
  | toStderr
  | toStream
  | toBuffer
deriving DecidableEq, Repr

/-- The gate and sink fan-out of `Logger::log` (`src/lib.rs` 395-485).
`currLevel` is `record.metadata().level()`, `modTag` the module tag used for
the override lookup, `output` the formatted line (formatting, timestamps and
color are opaque bytes here).  Returns the sinks written, in source order,
and the state (only the buffer can change).  OS / stream write results are
discarded by the source (`let _res = ...`), so writes are events only. -/
def logRecord (p : LoggerParams) (currLevel : Level) (modTag : Chars) (output : List Nat) :
    List SinkTarget × LoggerParams :=
  if currLevel ≤ LoggerParams.resolve p.mod_level p.default_level modTag then
    match p.log_dest with
    | .Stderr => ([.toStderr], p)
    | .Stdout => ([.toStdout], p)
    | .Stream =>
      match p.log_stream with
      | some _ => ([.toStream], p)
      | none => ([.toStderr], p)
    | .StreamStdout =>
      match p.log_stream with
      | some _ => ([.toStream, .toStdout], p)
      | none => ([.toStdout], p)
    | .StreamStderr =>
      match p.log_stream with
      | some _ => ([.toStream, .toStderr], p)
      | none => ([.toStderr], p)
    | .Buffer =>
      match p.log_buffer with
      | some b => ([.toBuffer], { p with log_buffer := some (b ++ output) })
      | none => ([.toStderr], p)
    | .BufferStdout =>
      match p.log_buffer with
      | some b => ([.toBuffer, .toStdout], { p with log_buffer := some (b ++ output) })
      | none => ([.toStdout], p)
    | .BufferStderr =>
      match p.log_buffer with
      | some b => ([.toBuffer, .toStderr], { p with log_buffer := some (b ++ output) })
      | none => ([.toStderr], p)
  else ([], p)

/-- `Logger::set_log_file` (`src/lib.rs` 227-270).  `createOk` models whether
`File::create` succeeds; the fresh file stream's accumulated bytes and
whether it was flushed are returned alongside the result and state.  The
buffer-to-file `write_all` is modelled as succeeding (its failure is an OS
write error, outside the state machine). -/
def set_log_file (p : LoggerParams) (log_dest : LogDestination) (createOk : Bool) :
    Except ErrorKind Unit × LoggerParams × List Nat × Bool :=
  let dest :=
    if log_dest.is_stdout then LogDestination.StreamStdout
    else if log_dest.is_stderr then LogDestination.StreamStderr
    else LogDestination.Stream
  if createOk then
    let r := p.retrieve_log_buffer
    let fileBytes := match r.1 with | some b => b | none => []
    let step := r.2.set_log_dest dest (some ())
    (step.1, step.2, fileBytes, r.1.isSome)
  else (Except.error ErrorKind.Upstream, p, [], false)

/-- `LogConfig` (`src/config.rs`): the built configuration struct.  Level
and destination strings are embedded already parsed; `PathBuf` as `Chars`. -/
structure LogConfig where
  default_level : Level
  mod_level : ModMap
  log_dest : LogDestination
  log_stream : Option Chars
  color : Bool
  no_mod : Bool
deriving DecidableEq, Repr

/-- `LogConfig::is_no_mod` — as written in `src/config.rs` it returns the
`color` field (`pub fn is_no_mod(&self) -> bool { self.color }`). -/
def LogConfig.is_no_mod (c : LogConfig) : Bool := c.color

/-- `LogConfigBuilder::new` (`src/config.rs` 113-125): all keys at their
built-in defaults. -/
def LogConfigBuilder.new : LogConfig :=
  { default_level := DEFAULT_LOG_LEVEL
    mod_level := []
    log_dest := DEFAULT_LOG_DEST
    log_stream := none
    color := false
    no_mod := false }

/-- The deserialized `LogConfigFile` (`src/config.rs`): every key optional.
Level / destination values are embedded already parsed (string parse
failures are upstream of the logic under study). -/
structure LogConfigFile where
  default_level : Option Level
  mod_level : Option ModMap
  log_dest : Option LogDestination
  log_stream : Option Chars
  color : Option Bool
  no_mod : Option Bool
deriving DecidableEq, Repr

/-- `LogConfigBuilder::from_file` (`src/config.rs` 148-198), after file read
and YAML deserialization: start from the builder defaults and overwrite a
field only when its key is present.  Note the source parses and validates
`log_dest` (a stream-class destination requires `log_stream`) but never
stores it into the builder. -/
def LogConfigBuilder.from_file (f : LogConfigFile) : Except ErrorKind LogConfig :=
  let b := LogConfigBuilder.new
  let b := match f.default_level with | some l => { b with default_level := l } | none => b
  let b :=
    match f.mod_level with
    | some ml => { b with mod_level := ml.foldl (fun m kv => insertMod m kv.1 kv.2) b.mod_level }
    | none => b
  match f.log_dest with
  | some d =>
    if d.is_stream_dest then
      match f.log_stream with
      | some s =>
        let b := { b with log_stream := some s }
        let b := match f.color with | some c => { b with color := c } | none => b
        let b := match f.no_mod with | some n => { b with no_mod := n } | none => b
        Except.ok b
      | none => Except.error ErrorKind.InvParam
    else
      let b := match f.color with | some c => { b with color := c } | none => b
      let b := match f.no_mod with | some n => { b with no_mod := n } | none => b
      Except.ok b
  | none =>
    let b := match f.color with | some c => { b with color := c } | none => b
    let b := match f.no_mod with | some n => { b with no_mod := n } | none => b
    Except.ok b

/-- The destination-switching block of `Logger::int_set_log_config`
(`src/lib.rs` 325-357): when the configured destination differs from the
current one, or is stream-class, switch to it (a stream-class destination
needs the `log_stream` path and a successful file open, modelled by
`openOk`). -/
def config_dest_step (p : LoggerParams) (cfg : LogConfig) (openOk : Bool) :
    Except ErrorKind Unit × LoggerParams :=
  if cfg.log_dest ≠ p.log_dest ∨ cfg.log_dest.is_stream_dest then
    if cfg.log_dest.is_stream_dest then
      match cfg.log_stream with
      | some _ =>
        if openOk then p.set_log_dest cfg.log_dest (some ())
        else (Except.error ErrorKind.Upstream, p)
      | none => (Except.error ErrorKind.InvParam, p)
    else p.set_log_dest cfg.log_dest none
  else (Except.ok (), p)

/-- `Logger::int_set_log_config` (`src/lib.rs` 314-363).  `openOk` models
whether `OpenOptions::open` on the configured log file succeeds.  Mutations
made before a failure persist, mirroring in-place mutation of the guarded
singleton state.  The source's `log_config.is_brief_info()` call resolves,
in this revision of `config.rs`, to the accessor `is_no_mod` (which returns
the `color` field). -/
def int_set_log_config (p : LoggerParams) (cfg : LogConfig) (openOk : Bool) :
    Except ErrorKind Unit × LoggerParams :=
  let q := (p.set_default_level cfg.default_level).set_mod_config cfg.mod_level
  let step := config_dest_step q cfg openOk
  match step.1 with
  | Except.ok _ =>
    (Except.ok (), { step.2 with color := cfg.color, brief_info := cfg.is_no_mod })
  | Except.error e => (Except.error e, step.2)

/-- The state-mutating public operations of `Logger` (`src/lib.rs`), as a
step alphabet for reachability.  `setLogDest` covers
`Logger::set_log_dest`, `setLogFile` covers `Logger::set_log_file`,
`setLogConfig` covers `Logger::set_log_config`, `getBuffer` covers
`Logger::get_buffer`, `logRec` covers `Log::log`, and the flag setters
cover `set_color` / `set_timestamp` / `set_millis` / `set_brief_info`. -/
inductive LogOp where
  | setModLevel (m : Chars) (l : Level)
  | setDefaultLevel (l : Level)
  | setLogDest (d : LogDestination) (s : Option Unit)
  | setLogFile (d : LogDestination) (createOk : Bool)
  | setLogConfig (cfg : LogConfig) (openOk : Bool)
  | getBuffer
  | logRec (l : Level) (m : Chars) (o : List Nat)
  | setColor (b : Bool)
  | setTimestamp (b : Bool)
  | setMillis (b : Bool)
  | setBriefInfo (b : Bool)

/-- Apply one public operation to the logger state (a failed operation
leaves the state that the source leaves behind). -/
def applyOp (p : LoggerParams) : LogOp → LoggerParams
  | .setModLevel m l => p.set_mod_level m l
  | .setDefaultLevel l => p.set_default_level l
  | .setLogDest d s => (p.set_log_dest d s).2
  | .setLogFile d ok => (set_log_file p d ok).2.1
  | .setLogConfig cfg ok => (int_set_log_config p cfg ok).2
  | .getBuffer => p.retrieve_log_buffer.2
  | .logRec l m o => (logRecord p l m o).2
  | .setColor b => { p with color := b }
  | .setTimestamp b => { p with timestamp := b }
  | .setMillis b => { p with millis := b }
  | .setBriefInfo b => { p with brief_info := b }

/-- States reachable from a freshly constructed `LoggerParams` through the
public operations. -/
inductive Reachable : LoggerParams → Prop where
  | init (l : Level) : Reachable (LoggerParams.new l)
  | step (p : LoggerParams) (op : LogOp) : Reachable p → Reachable (applyOp p op)

namespace LoggerParams

theorem recalcMax_nil (d : Level) : recalcMax d [] = d := rfl

theorem recalcMax_cons (d l : Level) (ls : List Level) :
    recalcMax d (l :: ls) = recalcMax (if d < l then l else d) ls := rfl

theorem le_recalcMax_init (d : Level) (ls : List Level) : d ≤ recalcMax d ls := by
  induction ls generalizing d with
  | nil => exact le_refl d
  | cons l ls ih =>
    rw [recalcMax_cons]
    refine le_trans ?_ (ih _)
    split
    · exact le_of_lt (by assumption)
    · exact le_refl d

theorem le_recalcMax_of_mem {x : Level} {ls : List Level} (d : Level) (h : x ∈ ls) :
    x ≤ recalcMax d ls := by
  induction ls generalizing d with
  | nil => cases h
  | cons l ls ih =>
    rw [recalcMax_cons]
    rcases List.mem_cons.mp h with rfl | hm
    · refine le_trans ?_ (le_recalcMax_init _ _)
      split
      · exact le_refl x
      · exact le_of_not_lt (by assumption)
    · exact ih _ hm

theorem recalcMax_le {d m : Level} {ls : List Level} (hd : d ≤ m)
    (h : ∀ x ∈ ls, x ≤ m) : recalcMax d ls ≤ m := by
  induction ls generalizing d with
  | nil => exact hd
  | cons l ls ih =>
    rw [recalcMax_cons]
    refine ih ?_ (fun x hx => h x (List.mem_cons_of_mem _ hx))
    split
    · exact h l (List.mem_cons_self l ls)
    · exact hd

theorem recalcMax_eq_or_mem (d : Level) (ls : List Level) :
    recalcMax d ls = d ∨ recalcMax d ls ∈ ls := by
  induction ls generalizing d with
  | nil => exact Or.inl rfl
  | cons l ls ih =>
    rw [recalcMax_cons]
    rcases ih (if d < l then l else d) with heq | hm
    · rw [heq]
      split
      · exact Or.inr (List.mem_cons_self _ _)
      · exact Or.inl rfl
    · exact Or.inr (List.mem_cons_of_mem _ hm)

theorem mem_vals_filter {x : Level} {m : ModMap} {q : Chars × Level → Bool}
    (h : x ∈ (m.filter q).map Prod.snd) : x ∈ m.map Prod.snd := by
  rcases List.mem_map.mp h with ⟨kv, hkv, rfl⟩
  exact List.mem_map.mpr ⟨kv, List.mem_of_mem_filter hkv, rfl⟩

theorem mem_vals_insertMod {x : Level} {m : ModMap} {k : Chars} {v : Level}
    (h : x ∈ (insertMod m k v).map Prod.snd) : x = v ∨ x ∈ m.map Prod.snd := by
  simp only [insertMod, List.map_cons] at h
  rcases List.mem_cons.mp h with h | h
  · exact Or.inl h
  · exact Or.inr (mem_vals_filter h)

theorem vals_insertMod_head {m : ModMap} {k : Chars} {v : Level} :
    v ∈ (insertMod m k v).map Prod.snd := by
  simp only [insertMod, List.map_cons]
  exact List.mem_cons_self _ _

/-- The C1 invariant: the stored running maximum always equals the
recompute-from-scratch value over the current default and all overrides. -/
def maxInv (p : LoggerParams) : Prop :=
  p.max_level = recalcMax p.default_level (p.mod_level.map Prod.snd)

theorem maxInv_new (l : Level) : maxInv (new l) := rfl

theorem maxInv_recalculate (p : LoggerParams) : maxInv (recalculate_max_level p) := rfl

theorem maxInv_set_mod_level {p : LoggerParams} (hp : maxInv p) (k : Chars) (v : Level) :
    maxInv (p.set_mod_level k v) := by
  have hd : p.default_level ≤ p.max_level := hp ▸ le_recalcMax_init _ _
  have hvals : ∀ x ∈ p.mod_level.map Prod.snd, x ≤ p.max_level :=
    fun x hx => hp ▸ le_recalcMax_of_mem _ hx
  unfold set_mod_level
  by_cases h1 : p.max_level < v
  · rw [if_pos h1]
    show v = recalcMax p.default_level ((insertMod p.mod_level k v).map Prod.snd)
    refine le_antisymm (le_recalcMax_of_mem _ vals_insertMod_head) (recalcMax_le (le_of_lt (lt_of_le_of_lt hd h1)) ?_)
    intro x hx
    rcases mem_vals_insertMod hx with rfl | hx
    · exact le_refl x
    · exact le_of_lt (lt_of_le_of_lt (hvals x hx) h1)
  · rw [if_neg h1]
    by_cases h2 : v < p.max_level
    · rw [if_pos h2]
      exact maxInv_recalculate _
    · rw [if_neg h2]
      have hv : v = p.max_level := le_antisymm (le_of_not_lt h1) (le_of_not_lt h2)
      show p.max_level = recalcMax p.default_level ((insertMod p.mod_level k v).map Prod.snd)
      refine le_antisymm ?_ (recalcMax_le hd ?_)
      · exact hv ▸ le_recalcMax_of_mem _ vals_insertMod_head
      · intro x hx
        rcases mem_vals_insertMod hx with rfl | hx
        · exact le_of_not_lt h1
        · exact hvals x hx

theorem maxInv_set_default_level {p : LoggerParams} (hp : maxInv p) (v : Level) :
    maxInv (p.set_default_level v) := by
  have hvals : ∀ x ∈ p.mod_level.map Prod.snd, x ≤ p.max_level :=
    fun x hx => hp ▸ le_recalcMax_of_mem _ hx
  unfold set_default_level
  by_cases h1 : p.max_level ≤ v
  · rw [if_pos h1]
    show v = recalcMax v (p.mod_level.map Prod.snd)
    refine le_antisymm (le_recalcMax_init _ _) (recalcMax_le (le_refl v) ?_)
    intro x hx
    exact le_trans (hvals x hx) h1
  · rw [if_neg h1]
    exact maxInv_recalculate _

end LoggerParams

/-- The operations the C1 property quantifies over: `Logger::set_mod_level`
and `Logger::set_default_level`. -/
inductive LevelOp where
  | mod (m : Chars) (l : Level)
  | dflt (l : Level)

/-- Apply one level-table operation. -/
def applyLevelOp (p : LoggerParams) : LevelOp → LoggerParams
  | .mod m l => p.set_mod_level m l
  | .dflt l => p.set_default_level l

/-- The logger state after a sequence of level-table calls starting from the
initial state `LoggerParams::new(l0)`. -/
def runLevelOps (l0 : Level) (ops : List LevelOp) : LoggerParams :=
  ops.foldl applyLevelOp (LoggerParams.new l0)

theorem maxInv_runLevelOps (l0 : Level) (ops : List LevelOp) :
    LoggerParams.maxInv (runLevelOps l0 ops) := by
  suffices h : ∀ (ops : List LevelOp) (p : LoggerParams), LoggerParams.maxInv p →
      LoggerParams.maxInv (ops.foldl applyLevelOp p) from
    h ops _ (LoggerParams.maxInv_new l0)
  intro ops
  induction ops with
  | nil => exact fun p hp => hp
  | cons op ops ih =>
    intro p hp
    refine ih _ ?_
    cases op with
    | mod m l => exact LoggerParams.maxInv_set_mod_level hp m l
    | dflt l => exact LoggerParams.maxInv_set_default_level hp l

/-- C1: after every sequence of `set_mod_level` / `set_default_level` calls
from the initial state, the stored `max_level` equals the
recompute-from-scratch maximum over the current default level and all
current module overrides, and it is the least restrictive (most verbose)
such severity: an upper bound of the default and of every override that is
itself the default or one of the overrides. -/
theorem c1_max_level_agrees (ops : List LevelOp) (l0 : Level) :
    (runLevelOps l0 ops).max_level =
      LoggerParams.recalcMax (runLevelOps l0 ops).default_level
        ((runLevelOps l0 ops).mod_level.map Prod.snd)
    ∧ (runLevelOps l0 ops).default_level ≤ (runLevelOps l0 ops).max_level
    ∧ (∀ x ∈ (runLevelOps l0 ops).mod_level.map Prod.snd, x ≤ (runLevelOps l0 ops).max_level)
    ∧ ((runLevelOps l0 ops).max_level = (runLevelOps l0 ops).default_level
        ∨ (runLevelOps l0 ops).max_level ∈ (runLevelOps l0 ops).mod_level.map Prod.snd) := by
  have h := maxInv_runLevelOps l0 ops
  refine ⟨h, h ▸ LoggerParams.le_recalcMax_init _ _,
    fun x hx => h ▸ LoggerParams.le_recalcMax_of_mem _ hx, ?_⟩
  rw [h]
  exact LoggerParams.recalcMax_eq_or_mem _ _

/-- C1 witness: in the run that sets the override `"a" -> Trace` on a logger
created at Info, the override value bounds the stored max level. -/
theorem c1_witness :
    Level.Trace ≤ (runLevelOps Level.Info [LevelOp.mod ['a'] Level.Trace]).max_level :=
  (c1_max_level_agrees [LevelOp.mod ['a'] Level.Trace] Level.Info).2.2.1
    Level.Trace (by decide)

/-- The override table `{"a": Warn, "a::b": Debug}` of the C2 example. -/
def exMapC2 : ModMap :=
  insertMod (insertMod [] "a".data Level.Warn) "a::b".data Level.Debug

/-- C2: level resolution tries the exact module path, strips the last
`"::"`-separated segment on a miss, falls back to the default when no
separator remains (total, no error case); the spec's concrete instances:
with overrides `{"a": Warn, "a::b": Debug}` and default Error, `"a::b::c"`
resolves to Debug, `"a::x"` to Warn and `"z"` to Error. -/
theorem c2_hierarchical_resolution :
    (∀ (m : ModMap) (path : Chars) (l : Level), lookupMod m path = some l →
        LoggerParams.get_mod_level m path = some l)
    ∧ (∀ (m : ModMap) (path : Chars) (i : Nat), lookupMod m path = none →
        rfindSep path = some i →
        LoggerParams.get_mod_level m path = LoggerParams.get_mod_level m (path.take i))
    ∧ (∀ (m : ModMap) (d : Level) (path : Chars), lookupMod m path = none →
        rfindSep path = none → LoggerParams.resolve m d path = d)
    ∧ LoggerParams.resolve exMapC2 Level.Error "a::b::c".data = Level.Debug
    ∧ LoggerParams.resolve exMapC2 Level.Error "a::x".data = Level.Warn
    ∧ LoggerParams.resolve exMapC2 Level.Error "z".data = Level.Error := by
  refine ⟨fun m path l h => LoggerParams.get_mod_level_hit h,
    fun m path i h1 h2 => LoggerParams.get_mod_level_step h1 h2,
    fun m d path h1 h2 => ?_, ?_, ?_, ?_⟩
  · unfold LoggerParams.resolve
    rw [LoggerParams.get_mod_level_miss h1 h2]
  · have hge : LoggerParams.get_mod_level exMapC2 "a::b::c".data = some Level.Debug := by
      rw [LoggerParams.get_mod_level_step (i := 4) (by decide) (by decide)]
      exact LoggerParams.get_mod_level_hit (by decide)
    unfold LoggerParams.resolve
    rw [hge]
  · have hge : LoggerParams.get_mod_level exMapC2 "a::x".data = some Level.Warn := by
      rw [LoggerParams.get_mod_level_step (i := 1) (by decide) (by decide)]
      exact LoggerParams.get_mod_level_hit (by decide)
    unfold LoggerParams.resolve
    rw [hge]
  · have hge : LoggerParams.get_mod_level exMapC2 "z".data = none :=
      LoggerParams.get_mod_level_miss (by decide) (by decide)
    unfold LoggerParams.resolve
    rw [hge]

/-- C2 witness: an exact-match lookup resolved through the theorem. -/
theorem c2_witness :
    LoggerParams.get_mod_level [(['a'], Level.Info)] ['a'] = some Level.Info :=
  c2_hierarchical_resolution.1 [(['a'], Level.Info)] ['a'] Level.Info (by decide)

/-- A fresh logger with default level Info: the effective level of every
module is Info, the destination the default (stderr). -/
def pInfo : LoggerParams := LoggerParams.new Level.Info

/-- C3: `Logger::log` writes to a sink exactly when the record's level is at
or below the effective resolved level of its module; a dropped record has no
side effect; on the concrete instance (default Info, no overrides) a Debug
record is dropped and an Info record is emitted (to the stderr sink). -/
theorem c3_emit_gate (p : LoggerParams) (l : Level) (m : Chars) (o : List Nat) :
    ((logRecord p l m o).1 ≠ [] ↔ l ≤ LoggerParams.resolve p.mod_level p.default_level m)
    ∧ ((logRecord p l m o).1 = [] → (logRecord p l m o).2 = p)
    ∧ (logRecord pInfo Level.Debug ['m'] o).1 = []
    ∧ (logRecord pInfo Level.Info ['m'] o).1 = [SinkTarget.toStderr] := by
  have hmiss : LoggerParams.get_mod_level ([] : ModMap) ['m'] = none :=
    LoggerParams.get_mod_level_miss (by decide) (by decide)
  have hres : LoggerParams.resolve ([] : ModMap) Level.Info ['m'] = Level.Info := by
    unfold LoggerParams.resolve
    rw [hmiss]
  refine ⟨?_, ?_, ?_, ?_⟩
  · unfold logRecord
    by_cases hg : l ≤ LoggerParams.resolve p.mod_level p.default_level m
    · rw [if_pos hg]
      refine iff_of_true ?_ hg
      split <;> first | (split <;> simp) | simp
    · rw [if_neg hg]
      exact iff_of_false (fun hne => hne rfl) hg
  · unfold logRecord
    by_cases hg : l ≤ LoggerParams.resolve p.mod_level p.default_level m
    · rw [if_pos hg]
      intro hnil
      exfalso
      revert hnil
      split <;> first | (split <;> simp) | simp
    · rw [if_neg hg]
      intro _
      rfl
  · unfold logRecord
    rw [show pInfo.mod_level = ([] : ModMap) from rfl,
      show pInfo.default_level = Level.Info from rfl, hres]
    rw [if_neg (by decide)]
  · unfold logRecord
    rw [show pInfo.mod_level = ([] : ModMap) from rfl,
      show pInfo.default_level = Level.Info from rfl, hres]
    rw [if_pos (by decide)]
    rfl

/-- C3 witness: the emitted Info record certifies its gate condition. -/
theorem c3_witness :
    Level.Info ≤ LoggerParams.resolve pInfo.mod_level pInfo.default_level ['m'] := by
  have h := c3_emit_gate pInfo Level.Info ['m'] []
  refine h.1.mp ?_
  rw [h.2.2.2]
  simp

end ModuleLogger
namespace ModuleLogger

theorem buffer_not_stream {d : LogDestination} (h : d.is_buffer_dest = true) :
    d.is_stream_dest = false := by
  cases d <;> simp_all [LogDestination.is_buffer_dest, LogDestination.is_stream_dest]

/-- A logger whose destination is the in-memory buffer, holding one byte. -/
def pC4 : LoggerParams :=
  { LoggerParams.new Level.Info with
    log_dest := LogDestination.Buffer
    log_buffer := some [65] }

/-- C4 (counterexample): the claim "switching away from a buffer-class
destination to ANY other destination does not clear the buffer" fails:
from a Buffer destination holding one byte, `set_log_dest(Stdout, None)`
succeeds and drops the buffer (`log_buffer` becomes `None`) with nothing
retrieved. -/
theorem c4_counterexample :
    pC4.log_dest.is_buffer_dest = true ∧ pC4.log_buffer = some [65]
    ∧ ((pC4.set_log_dest LogDestination.Stdout none).1 = Except.ok ()
        ∧ ((pC4.set_log_dest LogDestination.Stdout none).2).log_buffer = none) :=
  ⟨rfl, rfl, rfl, rfl⟩

/-- C4 (amended): switching away from a state holding a buffer preserves the
buffer's contents whenever the NEW destination is stream-class or
buffer-class; only a switch to a plain console destination (Stdout/Stderr)
discards it. -/
theorem c4_amended (p : LoggerParams) (b : List Nat) (d : LogDestination) (s : Option Unit)
    (hb : p.log_buffer = some b) (hd : d.is_stream_dest = true ∨ d.is_buffer_dest = true) :
    ((p.set_log_dest d s).2).log_buffer = some b := by
  unfold LoggerParams.set_log_dest
  rcases hd with hd | hd
  · rw [if_pos hd]
    cases s <;> simp [hb]
  · rw [if_neg (by rw [buffer_not_stream hd] ; exact Bool.false_ne_true), if_pos hd]
    simp [hb]

/-- C4 amended, witnessed at the concrete buffer state and a Stream switch. -/
theorem c4_amended_witness :
    ((pC4.set_log_dest LogDestination.Stream (some ())).2).log_buffer = some [65] :=
  c4_amended pC4 [65] LogDestination.Stream (some ()) (by decide) (Or.inl (by decide))

/-- C5: with `b` bytes buffered under an active Buffer destination,
switching to Stream (handle supplied) and back to Buffer without retrieving
succeeds and leaves the buffer holding exactly `b`, which
`retrieve_log_buffer` then returns. -/
theorem c5_buffer_across_stream (p : LoggerParams) (b : List Nat)
    (_hd : p.log_dest = LogDestination.Buffer) (hb : p.log_buffer = some b) :
    (p.set_log_dest LogDestination.Stream (some ())).1 = Except.ok ()
    ∧ (((p.set_log_dest LogDestination.Stream (some ())).2.set_log_dest
          LogDestination.Buffer none).1 = Except.ok ())
    ∧ (((p.set_log_dest LogDestination.Stream (some ())).2.set_log_dest
          LogDestination.Buffer none).2).log_buffer = some b
    ∧ ((((p.set_log_dest LogDestination.Stream (some ())).2.set_log_dest
          LogDestination.Buffer none).2).retrieve_log_buffer).1 = some b := by
  unfold LoggerParams.set_log_dest LoggerParams.retrieve_log_buffer
  simp [hb, LogDestination.is_stream_dest, LogDestination.is_buffer_dest]

/-- C5 witnessed at a concrete one-byte buffer state. -/
theorem c5_witness :
    ((((pC4.set_log_dest LogDestination.Stream (some ())).2.set_log_dest
        LogDestination.Buffer none).2).retrieve_log_buffer).1 = some [65] :=
  (c5_buffer_across_stream pC4 [65] (by decide) (by decide)).2.2.2

/-- C6: `set_log_dest` fails with `InvParam` exactly when the requested
destination is stream-class and no stream handle is supplied; every error is
`InvParam`; in every other case it returns Ok; and on failure the state
(destination, stream handle, buffer) is unchanged. -/
theorem c6_set_log_dest_errors (p : LoggerParams) (d : LogDestination) (s : Option Unit) :
    ((p.set_log_dest d s).1 = Except.error ErrorKind.InvParam
      ↔ (d.is_stream_dest = true ∧ s = none))
    ∧ (∀ e, (p.set_log_dest d s).1 = Except.error e → e = ErrorKind.InvParam)
    ∧ (¬(d.is_stream_dest = true ∧ s = none) → (p.set_log_dest d s).1 = Except.ok ())
    ∧ (∀ e, (p.set_log_dest d s).1 = Except.error e → (p.set_log_dest d s).2 = p) := by
  cases d <;> cases s <;>
    simp [LoggerParams.set_log_dest, LogDestination.is_stream_dest,
      LogDestination.is_buffer_dest]

/-- C6 witnessed: requesting Stream with no handle on a fresh logger is an
invalid-parameter error. -/
theorem c6_witness :
    (pInfo.set_log_dest LogDestination.Stream none).1 = Except.error ErrorKind.InvParam :=
  (c6_set_log_dest_errors pInfo LogDestination.Stream none).1.mpr (by decide)

/-- A reachable state with a surviving buffer and a stream destination. -/
def pC7 : LoggerParams :=
  (((LoggerParams.new Level.Info).set_log_dest LogDestination.Buffer none).2.set_log_dest
    LogDestination.Stream (some ())).2

/-- C7 (counterexample): the claim "retrieve returns absent exactly when no
buffer-class destination is active" fails: after Buffer then Stream (a
reachable state), the destination is not buffer-class yet
`retrieve_log_buffer` still returns the surviving (empty) buffer. -/
theorem c7_counterexample :
    pC7.log_dest.is_buffer_dest = false ∧ (pC7.retrieve_log_buffer).1.isSome = true := by
  decide

/-- C7 (amended): `retrieve_log_buffer` returns the accumulated contents
and leaves the buffer cleared (empty); it returns absent exactly when no
buffer is allocated — which can differ from «no buffer-class destination is
active», since a buffer survives a switch to a stream-class destination. -/
theorem c7_amended (p : LoggerParams) :
    ((p.retrieve_log_buffer).1 = none ↔ p.log_buffer = none)
    ∧ (∀ b, p.log_buffer = some b →
        p.retrieve_log_buffer = (some b, { p with log_buffer := some [] })) := by
  unfold LoggerParams.retrieve_log_buffer
  cases hb : p.log_buffer <;> simp

/-- C7 amended, witnessed at the concrete one-byte buffer state. -/
theorem c7_amended_witness :
    pC4.retrieve_log_buffer = (some [65], { pC4 with log_buffer := some [] }) :=
  (c7_amended pC4).2 [65] (by decide)

end ModuleLogger
namespace ModuleLogger

/-- The C8 invariant: a stream-class destination always has a stream handle
attached. -/
def streamInv (p : LoggerParams) : Prop :=
  p.log_dest.is_stream_dest = true → p.log_stream.isSome = true

theorem streamInv_frame {p q : LoggerParams} (hd : q.log_dest = p.log_dest)
    (hs : q.log_stream = p.log_stream) (hp : streamInv p) : streamInv q := by
  intro h
  rw [hd] at h
  rw [hs]
  exact hp h

theorem set_mod_level_dest (p : LoggerParams) (m : Chars) (l : Level) :
    (p.set_mod_level m l).log_dest = p.log_dest ∧
      (p.set_mod_level m l).log_stream = p.log_stream := by
  unfold LoggerParams.set_mod_level
  split
  · exact ⟨rfl, rfl⟩
  · split
    · exact ⟨rfl, rfl⟩
    · exact ⟨rfl, rfl⟩

theorem set_default_level_dest (p : LoggerParams) (l : Level) :
    (p.set_default_level l).log_dest = p.log_dest ∧
      (p.set_default_level l).log_stream = p.log_stream := by
  unfold LoggerParams.set_default_level
  split
  · exact ⟨rfl, rfl⟩
  · exact ⟨rfl, rfl⟩

theorem set_mod_config_dest (p : LoggerParams) (cfg : ModMap) :
    (p.set_mod_config cfg).log_dest = p.log_dest ∧
      (p.set_mod_config cfg).log_stream = p.log_stream :=
  ⟨rfl, rfl⟩

theorem retrieve_log_buffer_dest (p : LoggerParams) :
    (p.retrieve_log_buffer.2).log_dest = p.log_dest ∧
      (p.retrieve_log_buffer.2).log_stream = p.log_stream := by
  unfold LoggerParams.retrieve_log_buffer
  split
  · exact ⟨rfl, rfl⟩
  · exact ⟨rfl, rfl⟩

theorem logRecord_dest (p : LoggerParams) (l : Level) (m : Chars) (o : List Nat) :
    (logRecord p l m o).2.log_dest = p.log_dest ∧
      (logRecord p l m o).2.log_stream = p.log_stream := by
  unfold logRecord
  split
  · split <;> first | (split <;> exact ⟨rfl, rfl⟩) | exact ⟨rfl, rfl⟩
  · exact ⟨rfl, rfl⟩

theorem streamInv_set_log_dest {p : LoggerParams} (hp : streamInv p)
    (d : LogDestination) (s : Option Unit) : streamInv ((p.set_log_dest d s).2) := by
  unfold LoggerParams.set_log_dest
  by_cases hd : d.is_stream_dest = true
  · rw [if_pos hd]
    cases s
    · exact hp
    · intro _
      rfl
  · rw [if_neg hd]
    by_cases hb : d.is_buffer_dest = true
    · rw [if_pos hb]
      intro h
      exact absurd h hd
    · rw [if_neg hb]
      intro h
      exact absurd h hd

theorem streamInv_config_dest_step {p : LoggerParams} (hp : streamInv p)
    (cfg : LogConfig) (ok : Bool) : streamInv ((config_dest_step p cfg ok).2) := by
  unfold config_dest_step
  split
  · split
    · split
      · split
        · exact streamInv_set_log_dest hp _ _
        · exact hp
      · exact hp
    · exact streamInv_set_log_dest hp _ _
  · exact hp

theorem streamInv_int_set_log_config {p : LoggerParams} (hp : streamInv p)
    (cfg : LogConfig) (ok : Bool) : streamInv ((int_set_log_config p cfg ok).2) := by
  have hq : streamInv ((p.set_default_level cfg.default_level).set_mod_config cfg.mod_level) :=
    streamInv_frame
      ((set_mod_config_dest _ _).1.trans (set_default_level_dest _ _).1)
      ((set_mod_config_dest _ _).2.trans (set_default_level_dest _ _).2) hp
  simp only [int_set_log_config]
  split
  · exact streamInv_frame rfl rfl (streamInv_config_dest_step hq cfg ok)
  · exact streamInv_config_dest_step hq cfg ok

theorem streamInv_set_log_file {p : LoggerParams} (hp : streamInv p)
    (d : LogDestination) (ok : Bool) : streamInv ((set_log_file p d ok).2.1) := by
  cases ok with
  | false => exact hp
  | true =>
    exact streamInv_set_log_dest
      (streamInv_frame (retrieve_log_buffer_dest p).1 (retrieve_log_buffer_dest p).2 hp) _ _

theorem streamInv_applyOp {p : LoggerParams} (hp : streamInv p) (op : LogOp) :
    streamInv (applyOp p op) := by
  cases op with
  | setModLevel m l => exact streamInv_frame (set_mod_level_dest p m l).1 (set_mod_level_dest p m l).2 hp
  | setDefaultLevel l => exact streamInv_frame (set_default_level_dest p l).1 (set_default_level_dest p l).2 hp
  | setLogDest d s => exact streamInv_set_log_dest hp d s
  | setLogFile d ok => exact streamInv_set_log_file hp d ok
  | setLogConfig cfg ok => exact streamInv_int_set_log_config hp cfg ok
  | getBuffer => exact streamInv_frame (retrieve_log_buffer_dest p).1 (retrieve_log_buffer_dest p).2 hp
  | logRec l m o => exact streamInv_frame (logRecord_dest p l m o).1 (logRecord_dest p l m o).2 hp
  | setColor b => exact hp
  | setTimestamp b => exact hp
  | setMillis b => exact hp
  | setBriefInfo b => exact hp

/-- C8: in every state reachable from the initial `LoggerParams` state
through the public operations, a stream-class destination has a stream
handle attached, and therefore the emit-time fallback to stderr in the
Stream branch of `Logger::log` is never taken (a log call under destination
Stream never produces exactly a stderr write). -/
theorem c8_stream_invariant (p : LoggerParams) (h : Reachable p) :
    (p.log_dest.is_stream_dest = true → p.log_stream.isSome = true)
    ∧ (p.log_dest = LogDestination.Stream → ∀ (l : Level) (m : Chars) (o : List Nat),
        (logRecord p l m o).1 ≠ [SinkTarget.toStderr]) := by
  have hinv : streamInv p := by
    induction h with
    | init l =>
      intro hs
      simp [LoggerParams.new, DEFAULT_LOG_DEST, LogDestination.is_stream_dest] at hs
    | step p op hp ih => exact streamInv_applyOp ih op
  refine ⟨hinv, ?_⟩
  intro hdest l m o
  have hs : p.log_stream.isSome = true := hinv (by rw [hdest] ; rfl)
  unfold logRecord
  split
  · rw [hdest]
    cases hstr : p.log_stream with
    | some u => simp
    | none => rw [hstr] at hs ; cases hs
  · simp

/-- C8 witnessed on the reachable state after `set_log_dest(Stream, Some)`. -/
theorem c8_witness :
    ((applyOp (LoggerParams.new Level.Info)
        (LogOp.setLogDest LogDestination.Stream (some ()))).log_stream).isSome = true := by
  have h := c8_stream_invariant _
    (Reachable.step (LoggerParams.new Level.Info)
      (LogOp.setLogDest LogDestination.Stream (some ())) (Reachable.init Level.Info))
  exact h.1 (by decide)

end ModuleLogger
namespace ModuleLogger

/-- A configuration file with every key absent. -/
def fileAllAbsent : LogConfigFile :=
  { default_level := none
    mod_level := none
    log_dest := none
    log_stream := none
    color := none
    no_mod := none }

/-- A logger whose default level was changed to Debug and color enabled
through the API before the configuration is applied. -/
def pC9 : LoggerParams :=
  { (LoggerParams.new Level.Info).set_default_level Level.Debug with color := true }

/-- C9 (counterexample): the claim "keys absent from the configuration file
leave the previously configured values untouched" fails: building a config
from a file with every key absent yields the builder defaults
(default level Info, color off), and applying it to a logger previously set
to default level Debug with color on overwrites both. -/
theorem c9_counterexample :
    LogConfigBuilder.from_file fileAllAbsent = Except.ok LogConfigBuilder.new
    ∧ pC9.default_level = Level.Debug
    ∧ pC9.color = true
    ∧ (int_set_log_config pC9 LogConfigBuilder.new true).2.default_level ≠ pC9.default_level
    ∧ (int_set_log_config pC9 LogConfigBuilder.new true).2.color ≠ pC9.color :=
  ⟨rfl, rfl, rfl, by decide, by decide⟩

/-- C9 (amended): keys absent from the configuration file are filled with
the builder's built-in defaults, and `set_log_config` applies those
defaults, overwriting previously configured values: after applying the
all-absent-keys config, the default level is Info (`DEFAULT_LOG_LEVEL`) and
color is off, whatever the prior state was. -/
theorem c9_amended (p : LoggerParams) (ok : Bool) :
    LogConfigBuilder.from_file fileAllAbsent = Except.ok LogConfigBuilder.new
    ∧ (int_set_log_config p LogConfigBuilder.new ok).2.default_level = DEFAULT_LOG_LEVEL
    ∧ (int_set_log_config p LogConfigBuilder.new ok).2.color = false := by
  refine ⟨rfl, ?_, ?_⟩ <;>
    simp only [int_set_log_config, config_dest_step, LogConfigBuilder.new,
      LoggerParams.set_mod_config, LoggerParams.set_default_level,
      LoggerParams.recalculate_max_level, LoggerParams.set_log_dest, LogConfig.is_no_mod,
      DEFAULT_LOG_LEVEL, DEFAULT_LOG_DEST, LogDestination.is_stream_dest,
      LogDestination.is_buffer_dest] <;>
    split_ifs <;> simp_all

end ModuleLogger
namespace ModuleLogger

/-- C10: when `set_log_file` succeeds and an in-memory buffer holding `b`
exists, `b` is written and flushed to the newly created log file, the
buffer is left empty, and the destination becomes `StreamStdout` for a
stdout-affine argument, `StreamStderr` for stderr-affine, `Stream`
otherwise. -/
theorem c10_set_log_file (p : LoggerParams) (d : LogDestination) (b : List Nat)
    (hb : p.log_buffer = some b) :
    (set_log_file p d true).1 = Except.ok ()
    ∧ (set_log_file p d true).2.2.1 = b
    ∧ (set_log_file p d true).2.2.2 = true
    ∧ (set_log_file p d true).2.1.log_buffer = some []
    ∧ (d.is_stdout = true → (set_log_file p d true).2.1.log_dest = LogDestination.StreamStdout)
    ∧ (d.is_stderr = true → (set_log_file p d true).2.1.log_dest = LogDestination.StreamStderr)
    ∧ (d.is_stdout = false → d.is_stderr = false →
        (set_log_file p d true).2.1.log_dest = LogDestination.Stream) := by
  cases d <;>
    simp [set_log_file, LoggerParams.retrieve_log_buffer, LoggerParams.set_log_dest,
      LogDestination.is_stdout, LogDestination.is_stderr, LogDestination.is_stream_dest,
      hb]

/-- C10 witnessed at a concrete one-byte buffer state. -/
theorem c10_witness :
    (set_log_file pC4 LogDestination.Buffer true).2.2.1 = [65] :=
  (c10_set_log_file pC4 LogDestination.Buffer [65] (by decide)).2.1

end ModuleLogger
